import Mathlib

/-!
Verification of the Memory Indexing & Verification Engine of BetterHalf.ai.

The development shallowly embeds, in Lean, the TypeScript classes
`MemoryIndexer` (src/lib/memory-indexer.ts), `ZGIndexingService`
(src/lib/0g-indexing-service.ts), `MemoryService.createMemory`
(src/lib/memory-service.ts), `MemoryManager.generateEmbedding`
(src/lib/memory-manager.ts) and the Solidity contract `MemoryRegistry`
(src/contracts/MemoryRegistry.sol, the 0G-storage-integrated version).

Modelling conventions:
- JavaScript `undefined`-able values are `Option`; JS string truthiness
  (`if (s)`) treats both `undefined` and `""` as false, captured by
  `strPresent`.
- The browser `localStorage` guard (`typeof window === 'undefined'`) is the
  Boolean `hasLocalStorage` carried in the local store state.
- External collaborators (blob store upload, RPC reachability, keccak256,
  wallclock) are oracle fields of an `Env` record; contract calls are pure
  state transformers on a `Ledger`, guarded by `Env.netOk` (an unreachable
  RPC makes every contract call throw).  A transaction receipt hash is the
  abstract string `Env.txRef`.
- `bytes32(0)` (the Solidity "empty slot" sentinel) is the reserved string
  `bytes32Zero`; mapping lookups are association-list lookups.
- Asynchronous fire-and-forget work (`addToOnChainIndex`) is modelled as a
  separate step: `addToIndex` performs exactly the synchronous local
  updates that have happened when the TS `addToIndex` promise resolves.
-/

namespace BetterHalf

/-- JS string truthiness for optional strings: `undefined` and `""` are falsy.
`strPresent o = some s` exactly when the JS test `if (o)` passes. -/
def strPresent (o : Option String) : Option String :=
  o.bind (fun s => if s = "" then none else some s)

/-- JS `a || b` for two optional strings (empty string is falsy). -/
def jsOr (a b : Option String) : Option String :=
  match strPresent a with
  | some s => some s
  | none => b

/-- JS `String.prototype.includes`: substring containment. -/
def strContains (s sub : String) : Bool :=
  decide (List.IsInfix sub.toList s.toList)

/-- The `MemoryType` enum of `src/types/memory` (values as used by
`ZGIndexingService.getContentType` and the query content-type filter). -/
inductive MemoryType where
  | conversation
  | document
  | image
  | preference
  | other
deriving Repr, DecidableEq

/-- String rendering of a `MemoryType` (JS `type.toString()`). -/
def MemoryType.toStr : MemoryType → String
  | .conversation => "conversation"
  | .document => "document"
  | .image => "image"
  | .preference => "preference"
  | .other => "text"

/-- `MemoryEntry.metadata` (the fields this core reads/writes). -/
structure MemoryMetadata where
  size : Nat
  checksum : String
  blobId : Option String
deriving Repr, DecidableEq

/-- The central `MemoryEntry` record, with `accessPolicy.owner` flattened to
`owner`.  Optional fields are those the TS code accesses with `?.` or
populates only later (`explorerUrl`, `transactionHash`, ...). -/
structure MemoryEntry where
  id : String
  content : String
  type : Option MemoryType
  category : String
  tags : List String
  title : Option String
  createdAt : String
  encrypted : Bool
  owner : Option String
  metadata : Option MemoryMetadata
  ipfsHash : Option String
  explorerUrl : Option String
  transactionHash : Option String
  walrusUrl : Option String
deriving Repr, DecidableEq

/-- Summary metadata stored next to a vector in the local vector index
(`MemoryIndexer.updateLocalVectorIndex`). -/
structure VectorSummary where
  content : String
  tags : List String
  category : String
  createdAt : String
  storageId : Option String
deriving Repr, DecidableEq

/-- One entry of the local vector index (`og_vector_index`).  The float
vector components are modelled as exact rationals. -/
structure VectorEntry where
  id : String
  vector : List ℚ
  metadata : VectorSummary
deriving Repr, DecidableEq

/-- One value of the `og_index_config` side-table.  Every field is optional
because entries are built up by JS object-spread patches. -/
structure IndexConfigEntry where
  onChain : Option Bool
  transactionHash : Option String
  contractHash : Option String
  indexedAt : Option String
  verified : Option Bool
  verifiedAt : Option String
deriving Repr, DecidableEq

/-- The fresh (absent) config entry: `currentConfig[memoryId]` when the key
is not present (spreading `undefined` contributes no fields). -/
def IndexConfigEntry.empty : IndexConfigEntry :=
  ⟨none, none, none, none, none, none⟩

/-- The three persisted local-storage entries of `MemoryIndexer`
(`og_memory_index`, `og_vector_index`, `og_index_config`) plus the
environment flag for `typeof window !== 'undefined'`. -/
structure LocalStore where
  memoryIndex : List MemoryEntry
  vectorIndex : List VectorEntry
  indexConfig : List (String × IndexConfigEntry)
  hasLocalStorage : Bool
deriving Repr, DecidableEq

/-- `getIndexConfig()[memoryId]` with the absent entry defaulted for
spread-merging (`{...currentConfig[memoryId], ...config}`). -/
def lookupConfig (cfg : List (String × IndexConfigEntry)) (memoryId : String) :
    IndexConfigEntry :=
  (((cfg.find? (fun p => p.1 == memoryId)).map (fun p => p.2)).getD
    IndexConfigEntry.empty)

/-- `getIndexConfig()[memoryId]` as the raw JS lookup (possibly absent). -/
def lookupConfig? (cfg : List (String × IndexConfigEntry)) (memoryId : String) :
    Option IndexConfigEntry :=
  (cfg.find? (fun p => p.1 == memoryId)).map (fun p => p.2)

/-- Write `currentConfig[memoryId] = e` back into the association list. -/
def setConfig (cfg : List (String × IndexConfigEntry)) (memoryId : String)
    (e : IndexConfigEntry) : List (String × IndexConfigEntry) :=
  if cfg.any (fun p => p.1 == memoryId) then
    cfg.map (fun p => if p.1 == memoryId then (memoryId, e) else p)
  else
    cfg ++ [(memoryId, e)]

/-- `updateIndexConfig(memoryId, {onChain:true, transactionHash, contractHash,
indexedAt})` — the patch used by `addToOnChainIndex` and `batchIndexOnChain`.
All four keys are present in the JS object literal, so they override the old
entry even when the value is `undefined`; `verified`/`verifiedAt` survive. -/
def updateIndexConfigOnChain (ls : LocalStore) (memoryId : String)
    (txHash contractHash : Option String) (indexedAt : String) : LocalStore :=
  if ¬ ls.hasLocalStorage then ls
  else
    let old := lookupConfig ls.indexConfig memoryId
    let e : IndexConfigEntry :=
      { old with
        onChain := some true
        transactionHash := txHash
        contractHash := contractHash
        indexedAt := some indexedAt }
    { ls with indexConfig := setConfig ls.indexConfig memoryId e }

/-- `updateIndexConfig(memoryId, {verified:true, verifiedAt})` — the patch
used by `verifyMemory`; all other fields survive. -/
def updateIndexConfigVerified (ls : LocalStore) (memoryId : String)
    (verifiedAt : String) : LocalStore :=
  if ¬ ls.hasLocalStorage then ls
  else
    let old := lookupConfig ls.indexConfig memoryId
    let e : IndexConfigEntry :=
      { old with verified := some true, verifiedAt := some verifiedAt }
    { ls with indexConfig := setConfig ls.indexConfig memoryId e }

/-! ### The on-chain MemoryRegistry (src/contracts/MemoryRegistry.sol) -/

/-- `bytes32(0)`, the sentinel an uninitialized Solidity mapping slot
compares equal to.  Hash strings are abstract; this reserved string stands
for the zero word. -/
def bytes32Zero : String := "0x0"

/-- One `MemoryHash` struct of the registry contract (the version with 0G
Storage integration). -/
structure OnChainMemoryHash where
  hash : String
  metadata : String
  agent : String
  timestamp : Nat
  isActive : Bool
  zgStorageId : String
  contentType : String
  size : Nat
  tags : List String
deriving Repr, DecidableEq

/-- Registry contract storage: `memoryHashes`/`allMemoryHashes` as an
ordered association list keyed by hash, and the `verifiedHashes` set.
`agentMemories`, `zgStorageToHash`, `tagToHashes`, `allTags` and
`contentTypeCount` are derived from `entries` below. -/
structure Ledger where
  entries : List (String × OnChainMemoryHash)
  verified : List String
deriving Repr, DecidableEq

namespace Ledger

/-- `memoryHashes[hash]` — `none` models the all-zero struct. -/
def find? (led : Ledger) (h : String) : Option OnChainMemoryHash :=
  (led.entries.find? (fun p => p.1 == h)).map (fun p => p.2)

/-- Whether a hash is committed (`memoryHashes[hash].hash != bytes32(0)`). -/
def hasHash (led : Ledger) (h : String) : Bool :=
  (led.find? h).isSome

/-- `commitMemoryHash(hash, metadata, zgStorageId, contentType, size, tags)`:
idempotent-reject single commit.  `Except.error` is a `require` revert. -/
def commitMemoryHash (led : Ledger) (sender : String) (blockTime : Nat)
    (h meta zgStorageId contentType : String) (size : Nat)
    (tags : List String) : Except String Ledger :=
  if h == bytes32Zero then .error "Invalid hash"
  else if led.hasHash h then .error "Hash already exists"
  else if zgStorageId.length = 0 then .error "0G Storage ID required"
  else .ok { led with
    entries := led.entries ++
      [(h, ⟨h, meta, sender, blockTime, true, zgStorageId, contentType, size,
        tags⟩)] }

/-- `verifyMemoryHash(hash)`: marks an active committed hash as verified
(idempotent); the `onlyActiveHash` modifier reverts otherwise. -/
def verifyMemoryHash (led : Ledger) (h : String) : Except String Ledger :=
  match led.find? h with
  | none => .error "Memory hash is not active"
  | some e =>
    if ¬ e.isActive then .error "Memory hash is not active"
    else .ok { led with
      verified := if led.verified.contains h then led.verified
                  else led.verified ++ [h] }

/-- The body of the `batchCommitMemoryHashes` loop for one index `i`:
commit only if the slot is still empty, otherwise silently skip. -/
def commitIfNew (sender : String) (blockTime : Nat) (led : Ledger)
    (h meta zgStorageId contentType : String) (size : Nat)
    (tags : List String) : Ledger :=
  if led.hasHash h then led
  else { led with
    entries := led.entries ++
      [(h, ⟨h, meta, sender, blockTime, true, zgStorageId, contentType, size,
        tags⟩)] }

/-- `batchCommitMemoryHashes(hashes, metadatas, zgStorageIds, contentTypes,
sizes, allTags)`: validates the parallel arrays and the 50-record bound
on-chain, then commits every not-yet-present hash, skipping duplicates. -/
def batchCommitMemoryHashes (led : Ledger) (sender : String) (blockTime : Nat)
    (hashes metadatas zgStorageIds contentTypes : List String)
    (sizes : List Nat) (allTags : List (List String)) : Except String Ledger :=
  if hashes.length ≠ metadatas.length then .error "Arrays length mismatch"
  else if hashes.length ≠ zgStorageIds.length then
    .error "ZG Storage IDs length mismatch"
  else if hashes.length ≠ contentTypes.length then
    .error "Content types length mismatch"
  else if hashes.length ≠ sizes.length then .error "Sizes length mismatch"
  else if hashes.length ≠ allTags.length then .error "Tags length mismatch"
  else if hashes.length = 0 then .error "No hashes to commit"
  else if 50 < hashes.length then .error "Batch too large"
  else .ok ((List.range hashes.length).foldl
    (fun acc i => commitIfNew sender blockTime acc
      (hashes.getD i "") (metadatas.getD i "") (zgStorageIds.getD i "")
      (contentTypes.getD i "") (sizes.getD i 0) (allTags.getD i []))
    led)

/-- The five fields returned by `getMemoryStats()`. -/
structure Stats where
  totalMemories : Nat
  activeMemories : Nat
  verifiedMemories : Nat
  totalTags : Nat
  totalSize : Nat
deriving Repr, DecidableEq

/-- `getMemoryStats()`: totals over `allMemoryHashes`, size summed over the
active entries only, tag count from the deduplicated `allTags` list. -/
def getMemoryStats (led : Ledger) : Stats :=
  { totalMemories := led.entries.length
    activeMemories := (led.entries.filter (fun p => p.2.isActive)).length
    verifiedMemories :=
      (led.entries.filter (fun p => led.verified.contains p.1)).length
    totalTags := ((led.entries.map (fun p => p.2.tags)).flatten.dedup).length
    totalSize :=
      ((led.entries.filter (fun p => p.2.isActive)).map
        (fun p => p.2.size)).sum }

/-- `getMemoryHashesByTag(tag)` — details fetched via `getMemoryHash`. -/
def byTag (led : Ledger) (tag : String) : List OnChainMemoryHash :=
  (led.entries.filter (fun p => p.2.tags.contains tag)).map (fun p => p.2)

/-- `getMemoryHashesByContentType(contentType)` — with details. -/
def byContentType (led : Ledger) (ct : String) : List OnChainMemoryHash :=
  (led.entries.filter (fun p => p.2.contentType == ct)).map (fun p => p.2)

/-- `getAgentMemories(agent)` — with details. -/
def byAgent (led : Ledger) (agent : String) : List OnChainMemoryHash :=
  (led.entries.filter (fun p => p.2.agent == agent)).map (fun p => p.2)

end Ledger

/-! ### The 0G indexing service (src/lib/0g-indexing-service.ts) -/

/-- External-collaborator oracles.  `upload` is the Blob Store Adapter
(`OGStorageService.uploadContent`, whose implementation is outside this
core): it maps content to a storage id or fails.  `netOk` says whether RPC
submissions reach the contract; an unreachable RPC makes every contract
call throw.  `txRef` is the abstract transaction receipt hash, `nowIso`
the value of `new Date().toISOString()` at the call. -/
structure Env where
  keccak : String → String
  upload : String → Except String String
  netOk : Bool
  sender : String
  blockTime : Nat
  txRef : String
  nowIso : String

/-- Submit a contract call: pure contract semantics behind a reachability
gate. -/
def callContract (env : Env) (f : Ledger → Except String Ledger)
    (led : Ledger) : Except String Ledger :=
  if env.netOk then f led else .error "could not coalesce error"

/-- `ZGIndexingService` connection state after `initialize` ran:
`configSet` is `config !== null` (what `isInitialized()` checks) and
`contractSet` is `contract !== null` (blockchain availability; `false` is
the sticky storage-only degraded mode). -/
structure ZGState where
  configSet : Bool
  contractSet : Bool
deriving Repr, DecidableEq

/-- The per-record `IndexingResult` of the indexing service. -/
structure IndexingResult where
  success : Bool
  transactionHash : Option String
  contractHash : Option String
  error : Option String
deriving Repr, DecidableEq

namespace ZGIndexingService

/-- `getContentType(memory)`. -/
def getContentType (m : MemoryEntry) : String :=
  match m.type with
  | some t => t.toStr
  | none => "text"

/-- The `JSON.stringify({...})` metadata blob committed with each record;
serialization is modelled as an opaque field concatenation. -/
def metadataJson (m : MemoryEntry) : String :=
  String.intercalate "|"
    [m.title.getD "Untitled Memory", m.category, m.owner.getD "", m.createdAt]

/-- The storage-id resolution step shared by `indexMemory` and
`batchIndexMemories`: take `memory.metadata?.blobId || memory.ipfsHash`,
and if that is missing, empty, or still equal to the local ephemeral id,
upload the content to the blob store first. -/
def resolveStorageId (env : Env) (m : MemoryEntry) : Except String String :=
  let zgStorageId := jsOr (m.metadata.bind (fun md => md.blobId)) m.ipfsHash
  match strPresent zgStorageId with
  | none => env.upload m.content
  | some s => if s == m.id then env.upload m.content else .ok s

/-- `indexMemory(memory)`: store in 0G Storage if needed, then try the
on-chain commit.  A contract failure is demoted to storage-only success;
only a missing initialization escapes as a thrown error, and a storage
failure is caught into a failed result. -/
def indexMemory (env : Env) (zg : ZGState) (led : Ledger) (m : MemoryEntry) :
    Except String (IndexingResult × Ledger) :=
  if ¬ zg.configSet then .error "Service not initialized. Call initialize() first."
  else
    match resolveStorageId env m with
    | .error e => .ok (⟨false, none, none, some e⟩, led)
    | .ok zgStorageId =>
      let contentHash := env.keccak m.content
      if zg.contractSet then
        match callContract env
            (fun l => l.commitMemoryHash env.sender env.blockTime contentHash
              (metadataJson m) zgStorageId (getContentType m)
              m.content.length m.tags) led with
        | .ok led2 => .ok (⟨true, some env.txRef, some contentHash, none⟩, led2)
        | .error _ => .ok (⟨true, none, some contentHash, none⟩, led)
      else .ok (⟨true, none, some contentHash, none⟩, led)

/-- Result of `batchIndexMemories`, together with the observable network
behaviour: `batchTxAttempted` records whether a `batchCommitMemoryHashes`
transaction was handed to the RPC (it is, even when the contract `require`
rejects it — there is no client-side pre-submission validation). -/
structure BatchOutcome where
  results : List IndexingResult
  ledger : Ledger
  batchTxAttempted : Bool
deriving Repr, DecidableEq

/-- The array-building loop of `batchIndexMemories`: resolve each record's
storage id (uploading when needed); the first upload failure aborts the
whole batch (it is caught by the surrounding `try`). -/
def resolveAll (env : Env) (ms : List MemoryEntry) :
    Except String (List String) :=
  match ms with
  | [] => .ok []
  | m :: rest =>
    match resolveStorageId env m with
    | .error e => .error e
    | .ok s =>
      match resolveAll env rest with
      | .error e => .error e
      | .ok ss => .ok (s :: ss)

/-- The storage-only fallback of `batchIndexMemories` (contract

unavailable): sequential `indexMemory` calls. -/
def indexSequentially (env : Env) (zg : ZGState) (led : Ledger)
    (ms : List MemoryEntry) : Except String (List IndexingResult × Ledger) :=
  match ms with
  | [] => .ok ([], led)
  | m :: rest =>
    match indexMemory env zg led m with
    | .error e => .error e
    | .ok (r, led2) =>
      match indexSequentially env zg led2 rest with
      | .error e => .error e
      | .ok (rs, led3) => .ok (r :: rs, led3)

/-- `batchIndexMemories(memories)`: with the contract available, build the
six parallel arrays and submit one `batchCommitMemoryHashes` transaction;
on success all records report success, on any thrown error (upload failure
or contract revert) every record reports failure.  Without the contract,
fall back to sequential storage-only indexing. -/
def batchIndexMemories (env : Env) (zg : ZGState) (led : Ledger)
    (ms : List MemoryEntry) : Except String BatchOutcome :=
  if ¬ zg.contractSet then
    match indexSequentially env zg led ms with
    | .error e => .error e
    | .ok (rs, led2) => .ok ⟨rs, led2, false⟩
  else
    match resolveAll env ms with
    | .error e =>
      .ok ⟨ms.map (fun _ => ⟨false, none, none, some e⟩), led, false⟩
    | .ok zgStorageIds =>
      let hashes := ms.map (fun m => env.keccak m.content)
      let metadatas := ms.map metadataJson
      let contentTypes := ms.map getContentType
      let sizes := ms.map (fun m => m.content.length)
      let allTags := ms.map (fun m => m.tags)
      match callContract env
          (fun l => l.batchCommitMemoryHashes env.sender env.blockTime hashes
            metadatas zgStorageIds contentTypes sizes allTags) led with
      | .ok led2 =>
        .ok ⟨hashes.map (fun h => ⟨true, some env.txRef, some h, none⟩),
          led2, true⟩
      | .error e =>
        .ok ⟨ms.map (fun _ => ⟨false, none, none, some e⟩), led, true⟩

/-- `ZGIndexingService.queryMemories(criteria)`: returns `[]` without the
contract; otherwise dispatches on the first present criterion and fetches
details; a failed RPC read surfaces as a thrown `Query failed` error. -/
def queryMemoriesChain (env : Env) (zg : ZGState) (led : Ledger)
    (tag contentType agent : Option String) :
    Except String (List OnChainMemoryHash) :=
  if ¬ zg.contractSet then .ok []
  else if ¬ env.netOk then .error "Query failed: network error"
  else
    match strPresent tag with
    | some t => .ok (led.byTag t)
    | none =>
      match strPresent contentType with
      | some ct => .ok (led.byContentType ct)
      | none =>
        match strPresent agent with
        | some a => .ok (led.byAgent a)
        | none => .ok []

/-- `getIndexingStats()`: zero-filled placeholder stats whenever the
contract is absent or the stats RPC read fails, real ledger stats
otherwise.  This function never throws. -/
def getIndexingStats (env : Env) (zg : ZGState) (led : Ledger) :
    Ledger.Stats :=
  if ¬ zg.contractSet then ⟨0, 0, 0, 0, 0⟩
  else if ¬ env.netOk then ⟨0, 0, 0, 0, 0⟩
  else led.getMemoryStats

/-- Outcome of `ZGIndexingService.verifyMemory(hash)` plus the observable
network behaviour (`verifyTxAttempted`: a `verifyMemoryHash` transaction
was handed to the RPC). -/
structure VerifyChainOutcome where
  result : IndexingResult
  ledger : Ledger
  verifyTxAttempted : Bool
deriving Repr, DecidableEq

/-- `ZGIndexingService.verifyMemory(hash)`: fails fast without the
contract; otherwise submits `verifyMemoryHash` and reports the receipt. -/
def verifyMemoryChain (env : Env) (zg : ZGState) (led : Ledger)
    (h : String) : VerifyChainOutcome :=
  if ¬ zg.contractSet then
    ⟨⟨false, none, none, some "Blockchain verification not available"⟩, led,
      false⟩
  else
    match callContract env (fun l => l.verifyMemoryHash h) led with
    | .ok led2 => ⟨⟨true, some env.txRef, some h, none⟩, led2, true⟩
    | .error e => ⟨⟨false, none, none, some e⟩, led, true⟩

/-- `ZGIndexingService.getAllTags()`: the contract tag list, or `[]` when
the blockchain is offline or the read fails. -/
def getAllTagsChain (env : Env) (zg : ZGState) (led : Ledger) : List String :=
  if ¬ zg.contractSet then []
  else if ¬ env.netOk then []
  else (led.entries.map (fun p => p.2.tags)).flatten.dedup

end ZGIndexingService

/-! ### The memory indexer orchestrator (src/lib/memory-indexer.ts) -/

/-- `MemoryIndexer` static state after `ensureInitialized` has settled:
`zg = none` models `zgIndexingService === null` (no private key, or
initialization threw), `zg = some s` the constructed service in state
`s`. -/
structure IndexerState where
  store : LocalStore
  zg : Option ZGState
deriving Repr, DecidableEq

namespace MemoryIndexer

/-- `getMetadataIndex()`: the persisted list, or `[]` headless. -/
def getMetadataIndex (ls : LocalStore) : List MemoryEntry :=
  if ls.hasLocalStorage then ls.memoryIndex else []

/-- `getVectorIndex()`: the persisted list, or `[]` headless. -/
def getVectorIndex (ls : LocalStore) : List VectorEntry :=
  if ls.hasLocalStorage then ls.vectorIndex else []

/-- `getIndexConfig()`: the persisted map, or `{}` headless. -/
def getIndexConfigMap (ls : LocalStore) : List (String × IndexConfigEntry) :=
  if ls.hasLocalStorage then ls.indexConfig else []

/-- `currentIndex[existingIndex] = memory`: replace the first entry whose
id matches (the branch taken only when one exists). -/
def replaceFirstMem : List MemoryEntry → MemoryEntry → List MemoryEntry
  | [], _ => []
  | x :: xs, m => if x.id == m.id then m :: xs else x :: replaceFirstMem xs m

/-- Same replacement for the vector index. -/
def replaceFirstVec : List VectorEntry → VectorEntry → List VectorEntry
  | [], _ => []
  | x :: xs, v => if x.id == v.id then v :: xs else x :: replaceFirstVec xs v

/-- `updateLocalMetadataIndex(memory)`: headless is a no-op; otherwise
upsert — replace in place when the id exists, else `unshift` to the
front. -/
def updateLocalMetadataIndex (ls : LocalStore) (m : MemoryEntry) :
    LocalStore :=
  if ¬ ls.hasLocalStorage then ls
  else if ls.memoryIndex.any (fun x => x.id == m.id) then
    { ls with memoryIndex := replaceFirstMem ls.memoryIndex m }
  else
    { ls with memoryIndex := m :: ls.memoryIndex }

/-- `updateLocalVectorIndex(memoryId, vector, metadata)`: headless is a
no-op; otherwise upsert — replace in place or `push` to the end. -/
def updateLocalVectorIndex (ls : LocalStore) (memoryId : String)
    (vector : List ℚ) (m : MemoryEntry) : LocalStore :=
  if ¬ ls.hasLocalStorage then ls
  else
    let entry : VectorEntry :=
      ⟨memoryId, vector,
        ⟨m.content, m.tags, m.category, m.createdAt,
          jsOr (m.metadata.bind (fun md => md.blobId)) m.ipfsHash⟩⟩
    if ls.vectorIndex.any (fun v => v.id == memoryId) then
      { ls with vectorIndex := replaceFirstVec ls.vectorIndex entry }
    else
      { ls with vectorIndex := ls.vectorIndex ++ [entry] }

/-- The synchronous phase of `addToIndex(memory, vector?)`: upsert the
metadata index and, when a non-empty vector is given, the vector index.
The on-chain phase (`addToOnChainIndex`) is fire-and-forget — it has not
run when `addToIndex` returns and is modelled as the separate step
below. -/
def addToIndex (st : IndexerState) (m : MemoryEntry)
    (vector : Option (List ℚ)) : IndexerState :=
  let ls1 := updateLocalMetadataIndex st.store m
  let ls2 :=
    match vector with
    | some v => if 0 < v.length then updateLocalVectorIndex ls1 m.id v m
                else ls1
    | none => ls1
  { st with store := ls2 }

/-- The detached `addToOnChainIndex(memory, vector?)` task: skip when the
service is unavailable, otherwise `indexMemory` and — whenever the result
reports success — persist the `{onChain:true, transactionHash,
contractHash, indexedAt}` config entry.  Every thrown error is caught and
only logged. -/
def addToOnChainIndex (env : Env) (st : IndexerState) (led : Ledger)
    (m : MemoryEntry) : IndexerState × Ledger :=
  match st.zg with
  | none => (st, led)
  | some zg =>
    if ¬ zg.configSet then (st, led)
    else
      match ZGIndexingService.indexMemory env zg led m with
      | .error _ => (st, led)
      | .ok (r, led2) =>
        if r.success then
          let store2 := updateIndexConfigOnChain st.store m.id
            r.transactionHash r.contractHash env.nowIso
          ({ st with store := store2 }, led2)
        else (st, led2)

/-- `removeFromIndex(memoryId)`: filter the id out of both persisted local
indices (headless: both writes are skipped).  The `og_index_config`
side-table is not touched. -/
def removeFromIndex (ls : LocalStore) (memoryId : String) : LocalStore :=
  if ls.hasLocalStorage then
    { ls with
      memoryIndex := ls.memoryIndex.filter (fun m => m.id != memoryId)
      vectorIndex := ls.vectorIndex.filter (fun v => v.id != memoryId) }
  else ls

/-- The `queryMemories` criteria object. -/
structure QueryCriteria where
  tag : Option String
  contentType : Option String
  agent : Option String
  onChainOnly : Bool
deriving Repr, DecidableEq

/-- The local filtering phase of `queryMemories`: tag substring match
(case-insensitive), exact content-type match (case-insensitive), exact
owner match — each applied only when the criterion is a truthy string. -/
def queryMemoriesLocal (ls : LocalStore) (c : QueryCriteria) :
    List MemoryEntry :=
  let r0 := getMetadataIndex ls
  let r1 :=
    match strPresent c.tag with
    | some t =>
      r0.filter (fun m => m.tags.any
        (fun tg => strContains tg.toLower t.toLower))
    | none => r0
  let r2 :=
    match strPresent c.contentType with
    | some ct =>
      r1.filter (fun m =>
        match m.type with
        | some ty => ty.toStr.toLower == ct.toLower
        | none => false)
    | none => r1
  match strPresent c.agent with
  | some a => r2.filter (fun m => m.owner == some a)
  | none => r2

/-- `queryMemories(criteria)`: local results always come first; the chain
is additionally consulted when `onChainOnly` is set or the service is
initialized, and with `onChainOnly` the local results are intersected (by
storage id) with the chain's.  A failed chain query falls back to the
local results; the error never propagates. -/
def queryMemories (env : Env) (st : IndexerState) (led : Ledger)
    (c : QueryCriteria) : List MemoryEntry :=
  let localResults := queryMemoriesLocal st.store c
  let inited :=
    match st.zg with
    | some zg => zg.configSet
    | none => false
  if c.onChainOnly || inited then
    match st.zg with
    | some zg =>
      if zg.configSet then
        match ZGIndexingService.queryMemoriesChain env zg led c.tag
            c.contentType c.agent with
        | .ok onChainResults =>
          if c.onChainOnly then
            localResults.filter (fun lm => onChainResults.any (fun oc =>
              ((lm.metadata.bind (fun md => md.blobId)) ==
                some oc.zgStorageId) ||
              (lm.ipfsHash == some oc.zgStorageId)))
          else localResults
        | .error _ => localResults
      else localResults
    | none => localResults
  else localResults

/-- Outcome of `MemoryIndexer.verifyMemory(memoryId)` together with the
observable ledger interaction. -/
structure VerifyOutcome where
  result : Bool
  st : IndexerState
  ledger : Ledger
  verifyTxAttempted : Bool
deriving Repr, DecidableEq

/-- `verifyMemory(memoryId)`: `false` when the service is unavailable or
when the side-table holds no `contractHash` for this id (no ledger call in
either case); otherwise submit the chain verification and on success mark
the local config `verified`. -/
def verifyMemory (env : Env) (st : IndexerState) (led : Ledger)
    (memoryId : String) : VerifyOutcome :=
  match st.zg with
  | none => ⟨false, st, led, false⟩
  | some zg =>
    if ¬ zg.configSet then ⟨false, st, led, false⟩
    else
      match strPresent
          ((lookupConfig? (getIndexConfigMap st.store) memoryId).bind
            (fun e => e.contractHash)) with
      | none => ⟨false, st, led, false⟩
      | some h =>
        let out := ZGIndexingService.verifyMemoryChain env zg led h
        if out.result.success then
          let store2 := updateIndexConfigVerified st.store memoryId env.nowIso
          ⟨true, { st with store := store2 }, out.ledger,
            out.verifyTxAttempted⟩
        else ⟨false, st, out.ledger, out.verifyTxAttempted⟩

/-- The local block of `getIndexStats()`. -/
structure LocalStats where
  metadataCount : Nat
  vectorCount : Nat
  totalSize : Nat
deriving Repr, DecidableEq

/-- The value returned by `getIndexStats()`: local counts always, the
on-chain block only when the indexing service reports initialized. -/
structure IndexStats where
  localStats : LocalStats
  onChain : Option Ledger.Stats
  lastUpdated : String
deriving Repr, DecidableEq

/-- `getIndexStats()`: local counts from the persisted indices
(`m.metadata?.size || 0` summed), plus `getIndexingStats()` whenever the
service says it is initialized — even in storage-only degraded mode, where
that call yields the zero-filled block. -/
def getIndexStats (env : Env) (st : IndexerState) (led : Ledger) :
    IndexStats :=
  let mi := getMetadataIndex st.store
  let vi := getVectorIndex st.store
  let localStats : LocalStats :=
    ⟨mi.length, vi.length,
      (mi.map (fun m =>
        match m.metadata with
        | some md => md.size
        | none => 0)).sum⟩
  match st.zg with
  | none => ⟨localStats, none, env.nowIso⟩
  | some zg =>
    if zg.configSet then
      ⟨localStats, some (ZGIndexingService.getIndexingStats env zg led),
        env.nowIso⟩
    else ⟨localStats, none, env.nowIso⟩

/-- The `results.forEach((result, index) => ...)` loop of
`batchIndexOnChain`: persist an on-chain config entry for every successful
per-record result. -/
def updateConfigsFromResults (ls : LocalStore)
    (pairs : List (IndexingResult × MemoryEntry)) (indexedAt : String) :
    LocalStore :=
  pairs.foldl
    (fun acc p =>
      if p.1.success then
        updateIndexConfigOnChain acc p.2.id p.1.transactionHash
          p.1.contractHash indexedAt
      else acc) ls

/-- Outcome of `batchIndexOnChain`; the TS method returns `void`, the
per-record results it observed are exposed here for specification. -/
structure BatchIndexOutcome where
  st : IndexerState
  ledger : Ledger
  results : List IndexingResult
deriving Repr, DecidableEq

/-- `batchIndexOnChain(memories)`: skip when the service is unavailable;
otherwise delegate to `batchIndexMemories` and persist a config entry for
each success.  A thrown error is caught and only logged. -/
def batchIndexOnChain (env : Env) (st : IndexerState) (led : Ledger)
    (ms : List MemoryEntry) : BatchIndexOutcome :=
  match st.zg with
  | none => ⟨st, led, []⟩
  | some zg =>
    if ¬ zg.configSet then ⟨st, led, []⟩
    else
      match ZGIndexingService.batchIndexMemories env zg led ms with
      | .error _ => ⟨st, led, []⟩
      | .ok out =>
        let store2 := updateConfigsFromResults st.store
          (out.results.zip ms) env.nowIso
        ⟨{ st with store := store2 }, out.ledger, out.results⟩

end MemoryIndexer

/-! ### MemoryManager.generateEmbedding and MemoryService.createMemory -/

/-- `MemoryManager.generateEmbedding(text)`: call the embedding model
(an oracle), then truncate or zero-pad the returned vector to exactly
`maxVectorSize`; a model failure is rethrown as `Embedding generation
failed`. -/
def generateEmbedding (embedModel : String → Except String (List ℚ))
    (maxVectorSize : Nat) (text : String) : Except String (List ℚ) :=
  match embedModel text with
  | .error e => .error ("Embedding generation failed: " ++ e)
  | .ok v =>
    if maxVectorSize < v.length then .ok (v.take maxVectorSize)
    else .ok (v ++ List.replicate (maxVectorSize - v.length) 0)

/-- What `MemoryManager.storeEmbedding` returns to `createMemory`. -/
structure StoreEmbeddingResult where
  storageId : String
  explorerUrl : Option String
  transactionHash : Option String
deriving Repr, DecidableEq

/-- Oracles of one `createMemory` run: the generated uuid, the clock, the
raw embedding model, and the blob-store embedding upload. -/
structure CreateEnv where
  newId : String
  nowIso : String
  embedModel : String → Except String (List ℚ)
  storeEmbedding : String → String → Except String StoreEmbeddingResult

/-- The caller-provided part of a new memory
(`Omit<MemoryEntry, 'id' | 'createdAt' | 'updatedAt' | 'ipfsHash'>`). -/
structure MemoryData where
  content : String
  type : Option MemoryType
  category : String
  tags : List String
  title : Option String
deriving Repr, DecidableEq

/-- `MemoryService.createMemory(memoryData)`: build the record, push it to
the local cache, then try embedding + blob upload inside a `try` whose
`catch` only logs (`keeping local copy`), and finally run the synchronous
phase of `MemoryIndexer.addToIndex`.  The result type is `Except` because
the outer `catch` rethrows errors of the local phase; embedding or upload
failures never reach it. -/
def createMemory (cenv : CreateEnv) (st : IndexerState)
    (mems : List MemoryEntry) (md : MemoryData) :
    Except String (MemoryEntry × List MemoryEntry × IndexerState) :=
  let memory0 : MemoryEntry :=
    { id := cenv.newId
      content := md.content
      type := md.type
      category := md.category
      tags := md.tags
      title := md.title
      createdAt := cenv.nowIso
      encrypted := true
      owner := some "local-user"
      metadata := some ⟨md.content.length, "", none⟩
      ipfsHash := some cenv.newId
      explorerUrl := none
      transactionHash := none
      walrusUrl := none }
  let mems1 := mems ++ [memory0]
  let step :=
    match generateEmbedding cenv.embedModel 1536 md.content with
    | .error _ => (memory0, (none : Option (List ℚ)))
    | .ok v =>
      match cenv.storeEmbedding cenv.newId md.content with
      | .error _ => (memory0, some v)
      | .ok res =>
        ({ memory0 with
            walrusUrl := strPresent res.explorerUrl
            transactionHash := strPresent res.transactionHash
            ipfsHash := if res.storageId != "" then some res.storageId
                        else memory0.ipfsHash },
          some v)
  let st2 := MemoryIndexer.addToIndex st step.1 step.2
  .ok (step.1, mems1, st2)

/-! ### Cosine similarity (MemoryIndexer.cosineSimilarity)

The JS floats are modelled as exact reals, except that the one operation
that can leave the reals — the final division — is given its IEEE
semantics (`0/0 = NaN`, `x/0 = ±Infinity`). -/

/-- A JavaScript number result: a real value, `NaN`, or a signed
infinity. -/
inductive JSNum where
  | real (x : ℝ)
  | nan
  | posInf
  | negInf

/-- The loop accumulator `dotProduct`. -/
def dotList (a b : List ℝ) : ℝ :=
  (List.zipWith (fun x y => x * y) a b).sum

/-- The loop accumulators `normA` / `normB` (sums of squares). -/
def normSqList (a : List ℝ) : ℝ :=
  (a.map (fun x => x * x)).sum

/-- IEEE division as performed by the final `return` statement. -/
noncomputable def jsDiv (x y : ℝ) : JSNum :=
  if y = 0 then
    (if x = 0 then JSNum.nan else if 0 < x then JSNum.posInf else JSNum.negInf)
  else JSNum.real (x / y)

/-- `cosineSimilarity(a, b)`: `0` on mismatched lengths, otherwise
`dot / (sqrt(normA) * sqrt(normB))` with IEEE division. -/
noncomputable def cosineSimilarity (a b : List ℝ) : JSNum :=
  if a.length ≠ b.length then JSNum.real 0
  else jsDiv (dotList a b)
    (Real.sqrt (normSqList a) * Real.sqrt (normSqList b))

/-! ### Shared concrete sample data for closed witnesses -/

/-- An environment with reachable RPC. -/
def sampleEnvOn : Env :=
  ⟨fun s => "0xH" ++ s, fun _ => .ok "up-blob", true, "agentA", 7, "tx-1",
    "2026-01-01T00:00:00Z"⟩

/-- An environment whose RPC is unreachable (`netOk = false`). -/
def sampleEnvOff : Env :=
  ⟨fun s => "0xH" ++ s, fun _ => .ok "up-blob", false, "agentA", 7, "tx-1",
    "2026-01-01T00:00:00Z"⟩

/-- A memory already persisted to the blob store. -/
def sampleMemory : MemoryEntry :=
  { id := "id-1", content := "hello", type := some .conversation
    category := "chat", tags := ["ui"], title := none, createdAt := "t"
    encrypted := true, owner := some "agent-1"
    metadata := some ⟨5, "", some "blob-1"⟩, ipfsHash := some "blob-1"
    explorerUrl := none, transactionHash := none, walrusUrl := none }

/-- A second such memory with different content. -/
def sampleMemory2 : MemoryEntry :=
  { sampleMemory with
    id := "id-2", content := "world"
    metadata := some ⟨5, "", some "blob-2"⟩, ipfsHash := some "blob-2" }

/-- Empty browser-side local store. -/
def emptyStore : LocalStore := ⟨[], [], [], true⟩

/-- Indexer state: fully initialized service, contract available. -/
def stFull : IndexerState := ⟨emptyStore, some ⟨true, true⟩⟩

/-- Indexer state: service initialized, but the registry was unreachable at
initialization (sticky storage-only mode). -/
def stDegraded : IndexerState := ⟨emptyStore, some ⟨true, false⟩⟩

/-- The empty ledger. -/
def emptyLedger : Ledger := ⟨[], []⟩

/-- A ledger already holding the hash of `sampleMemory`'s content. -/
def ledgerWithHello : Ledger :=
  ⟨[("0xHhello",
    ⟨"0xHhello", "m", "agentB", 1, true, "blob-1", "conversation", 5,
      ["ui"]⟩)], []⟩

/-- A `createMemory` run whose embedding model is unavailable. -/
def sampleCreateEnvFail : CreateEnv :=
  ⟨"new-1", "t0", fun _ => .error "model unavailable",
    fun _ _ => .error "storage untouched"⟩

/-- Caller input for a `createMemory` run. -/
def sampleMemoryData : MemoryData :=
  ⟨"some content", some .preference, "prefs", ["ui"], none⟩

/-! ## Helper lemmas -/

theorem find?_map_replace (cfg : List (String × IndexConfigEntry))
    (memoryId : String) (e : IndexConfigEntry)
    (h : cfg.any (fun p => p.1 == memoryId) = true) :
    (cfg.map (fun p => if p.1 == memoryId then (memoryId, e) else p)).find?
      (fun p => p.1 == memoryId) = some (memoryId, e) := by
  induction cfg with
  | nil => simp at h
  | cons p ps ih =>
    by_cases hp : (p.1 == memoryId) = true
    · rw [List.map_cons, if_pos hp]
      simp only [List.find?_cons,
        show ((memoryId, e).1 == memoryId) = true by simp]
    · have hpf : (p.1 == memoryId) = false := by simpa using hp
      rw [List.map_cons, if_neg hp]
      simp only [List.find?_cons, hpf]
      exact ih (by simpa [List.any_cons, hpf] using h)

theorem find?_map_replace_other (cfg : List (String × IndexConfigEntry))
    (memoryId x : String) (e : IndexConfigEntry) (hx : x ≠ memoryId) :
    (cfg.map (fun p => if p.1 == memoryId then (memoryId, e) else p)).find?
      (fun p => p.1 == x) = cfg.find? (fun p => p.1 == x) := by
  induction cfg with
  | nil => rfl
  | cons p ps ih =>
    by_cases hp : (p.1 == memoryId) = true
    · have hpm : p.1 = memoryId := by simpa using hp
      have hhead : (((memoryId, e) : String × IndexConfigEntry).1 == x)
          = false := by
        simp only [beq_eq_false_iff_ne, ne_eq]
        exact fun hh => hx hh.symm
      have horig : (p.1 == x) = false := by
        rw [hpm]
        simp only [beq_eq_false_iff_ne, ne_eq]
        exact fun hh => hx hh.symm
      rw [List.map_cons, if_pos hp]
      simp only [List.find?_cons, hhead, horig]
      exact ih
    · rw [List.map_cons, if_neg hp]
      by_cases hq : (p.1 == x) = true
      · simp only [List.find?_cons, hq]
      · have hqf : (p.1 == x) = false := by simpa using hq
        simp only [List.find?_cons, hqf]
        exact ih

theorem lookupConfig_setConfig_self (cfg : List (String × IndexConfigEntry))
    (memoryId : String) (e : IndexConfigEntry) :
    lookupConfig (setConfig cfg memoryId e) memoryId = e := by
  unfold setConfig lookupConfig
  by_cases h : cfg.any (fun p => p.1 == memoryId) = true
  · rw [if_pos h, find?_map_replace cfg memoryId e h]
    rfl
  · rw [if_neg h]
    have hnone : cfg.find? (fun p => p.1 == memoryId) = none := by
      rw [List.find?_eq_none]
      intro p hp hpx
      exact h (List.any_eq_true.mpr ⟨p, hp, hpx⟩)
    rw [List.find?_append, hnone]
    simp only [Option.none_or, List.find?_cons,
      show ((memoryId, e).1 == memoryId) = true by simp]
    rfl

theorem lookupConfig_setConfig_other (cfg : List (String × IndexConfigEntry))
    (memoryId x : String) (e : IndexConfigEntry) (hx : x ≠ memoryId) :
    lookupConfig (setConfig cfg memoryId e) x = lookupConfig cfg x := by
  unfold setConfig lookupConfig
  by_cases h : cfg.any (fun p => p.1 == memoryId) = true
  · rw [if_pos h, find?_map_replace_other cfg memoryId x e hx]
  · rw [if_neg h]
    have hlast : ([((memoryId, e) : String × IndexConfigEntry)].find?
        (fun p => p.1 == x)) = none := by
      have hne : (((memoryId, e) : String × IndexConfigEntry).1 == x)
          = false := by
        simp only [beq_eq_false_iff_ne, ne_eq]
        exact fun hh => hx hh.symm
      simp only [List.find?_cons, hne]
      rfl
    rw [List.find?_append, hlast, Option.or_none]

theorem updateIndexConfigOnChain_indexConfig (ls : LocalStore)
    (memoryId : String) (tx ch : Option String) (t : String)
    (hls : ls.hasLocalStorage = true) :
    (updateIndexConfigOnChain ls memoryId tx ch t).indexConfig
      = setConfig ls.indexConfig memoryId
        { lookupConfig ls.indexConfig memoryId with
          onChain := some true
          transactionHash := tx
          contractHash := ch
          indexedAt := some t } := by
  unfold updateIndexConfigOnChain
  rw [if_neg (by simp [hls])]

theorem updateIndexConfigOnChain_noop (ls : LocalStore) (memoryId : String)
    (tx ch : Option String) (t : String) (hls : ls.hasLocalStorage = false) :
    updateIndexConfigOnChain ls memoryId tx ch t = ls := by
  unfold updateIndexConfigOnChain
  rw [if_pos (by simp [hls])]

theorem updateIndexConfigOnChain_hasLS (ls : LocalStore) (memoryId : String)
    (tx ch : Option String) (t : String) :
    (updateIndexConfigOnChain ls memoryId tx ch t).hasLocalStorage
      = ls.hasLocalStorage := by
  unfold updateIndexConfigOnChain
  split <;> rfl

theorem updateIndexConfigOnChain_sets (ls : LocalStore) (memoryId : String)
    (tx ch : Option String) (t : String) (hls : ls.hasLocalStorage = true) :
    (lookupConfig (updateIndexConfigOnChain ls memoryId tx ch t).indexConfig
      memoryId).onChain = some true := by
  rw [updateIndexConfigOnChain_indexConfig ls memoryId tx ch t hls,
    lookupConfig_setConfig_self]

theorem updateIndexConfigOnChain_preserves (ls : LocalStore)
    (memoryId x : String) (tx ch : Option String) (t : String)
    (h : (lookupConfig ls.indexConfig x).onChain = some true) :
    (lookupConfig (updateIndexConfigOnChain ls memoryId tx ch t).indexConfig
      x).onChain = some true := by
  by_cases hls : ls.hasLocalStorage = true
  · by_cases hx : x = memoryId
    · subst hx
      exact updateIndexConfigOnChain_sets ls x tx ch t hls
    · rw [updateIndexConfigOnChain_indexConfig ls memoryId tx ch t hls,
        lookupConfig_setConfig_other _ _ _ _ hx]
      exact h
  · rw [updateIndexConfigOnChain_noop ls memoryId tx ch t
      (by simpa using hls)]
    exact h

theorem removeFromIndex_indexConfig (ls : LocalStore) (rid : String) :
    (MemoryIndexer.removeFromIndex ls rid).indexConfig = ls.indexConfig := by
  unfold MemoryIndexer.removeFromIndex
  split <;> rfl

theorem removeFromIndex_hasLS (ls : LocalStore) (rid : String) :
    (MemoryIndexer.removeFromIndex ls rid).hasLocalStorage
      = ls.hasLocalStorage := by
  unfold MemoryIndexer.removeFromIndex
  split <;> rfl

theorem getIndexConfigMap_removeFromIndex (ls : LocalStore) (rid : String) :
    MemoryIndexer.getIndexConfigMap (MemoryIndexer.removeFromIndex ls rid)
      = MemoryIndexer.getIndexConfigMap ls := by
  unfold MemoryIndexer.getIndexConfigMap
  rw [removeFromIndex_hasLS, removeFromIndex_indexConfig]

theorem verifyMemory_parts_congr (env : Env) (led : Ledger) (vid : String)
    (zg : Option ZGState) (ls ls2 : LocalStore)
    (hcfg : MemoryIndexer.getIndexConfigMap ls2
      = MemoryIndexer.getIndexConfigMap ls) :
    ((MemoryIndexer.verifyMemory env ⟨ls2, zg⟩ led vid).result
        = (MemoryIndexer.verifyMemory env ⟨ls, zg⟩ led vid).result)
    ∧ ((MemoryIndexer.verifyMemory env ⟨ls2, zg⟩ led vid).ledger
        = (MemoryIndexer.verifyMemory env ⟨ls, zg⟩ led vid).ledger)
    ∧ ((MemoryIndexer.verifyMemory env ⟨ls2, zg⟩ led vid).verifyTxAttempted
        = (MemoryIndexer.verifyMemory env ⟨ls, zg⟩ led
            vid).verifyTxAttempted) := by
  cases zg with
  | none => exact ⟨rfl, rfl, rfl⟩
  | some z =>
    by_cases hcs : z.configSet = true
    · rcases hsp : strPresent ((lookupConfig?
          (MemoryIndexer.getIndexConfigMap ls) vid).bind
          (fun e => e.contractHash)) with _ | hsh
      · have hsp2 : strPresent ((lookupConfig?
            (MemoryIndexer.getIndexConfigMap ls2) vid).bind
            (fun e => e.contractHash)) = none := by rw [hcfg]; exact hsp
        simp [MemoryIndexer.verifyMemory, hcs, hsp, hsp2]
      · have hsp2 : strPresent ((lookupConfig?
            (MemoryIndexer.getIndexConfigMap ls2) vid).bind
            (fun e => e.contractHash)) = some hsh := by rw [hcfg]; exact hsp
        by_cases hsucc :
            (ZGIndexingService.verifyMemoryChain env z led hsh).result.success
              = true
        · simp [MemoryIndexer.verifyMemory, hcs, hsp, hsp2, hsucc]
        · simp [MemoryIndexer.verifyMemory, hcs, hsp, hsp2, hsucc]
    · simp [MemoryIndexer.verifyMemory, hcs]

/-! ## Claim theorems -/

/-- C10: for every memory id, `removeFromIndex` leaves the persisted
`og_index_config` side-table completely unchanged — in particular the
removed id's entry (its `contractHash`, `onChain`, `verified` fields)
survives deletion — and `verifyMemory` called after the removal behaves
exactly as before it (same Boolean result, same ledger effect, same
network-verify attempt), still consulting the retained `contractHash`. -/
theorem C10_removeFromIndex_frames_config (env : Env) (st : IndexerState)
    (led : Ledger) (removedId verifyId : String) :
    ((MemoryIndexer.removeFromIndex st.store removedId).indexConfig
        = st.store.indexConfig)
    ∧ (lookupConfig?
          (MemoryIndexer.removeFromIndex st.store removedId).indexConfig
          removedId
        = lookupConfig? st.store.indexConfig removedId)
    ∧ ((MemoryIndexer.verifyMemory env
          ⟨MemoryIndexer.removeFromIndex st.store removedId, st.zg⟩ led
          verifyId).result
        = (MemoryIndexer.verifyMemory env st led verifyId).result)
    ∧ ((MemoryIndexer.verifyMemory env
          ⟨MemoryIndexer.removeFromIndex st.store removedId, st.zg⟩ led
          verifyId).ledger
        = (MemoryIndexer.verifyMemory env st led verifyId).ledger)
    ∧ ((MemoryIndexer.verifyMemory env
          ⟨MemoryIndexer.removeFromIndex st.store removedId, st.zg⟩ led
          verifyId).verifyTxAttempted
        = (MemoryIndexer.verifyMemory env st led
            verifyId).verifyTxAttempted) := by
  have hparts := verifyMemory_parts_congr env led verifyId st.zg st.store
    (MemoryIndexer.removeFromIndex st.store removedId)
    (getIndexConfigMap_removeFromIndex st.store removedId)
  exact ⟨removeFromIndex_indexConfig st.store removedId,
    by rw [removeFromIndex_indexConfig], hparts.1, hparts.2.1, hparts.2.2⟩

/-- C9: `removeFromIndex(id)` deletes the id's entry from both the Local
Metadata Index and the Local Vector Index (browser context): afterwards no
entry of either index carries the id, each index's key set is exactly the
old key set minus the id, and therefore two indices keyed by the same set
of ids before the removal remain keyed by the same set after it. -/
theorem C9_removeFromIndex_removes_both (ls : LocalStore) (rid : String)
    (hls : ls.hasLocalStorage = true) :
    (∀ m ∈ (MemoryIndexer.removeFromIndex ls rid).memoryIndex, m.id ≠ rid)
    ∧ (∀ v ∈ (MemoryIndexer.removeFromIndex ls rid).vectorIndex, v.id ≠ rid)
    ∧ (∀ x, x ∈ ((MemoryIndexer.removeFromIndex ls rid).memoryIndex.map
          (fun m => m.id))
        ↔ (x ∈ (ls.memoryIndex.map (fun m => m.id)) ∧ x ≠ rid))
    ∧ (∀ x, x ∈ ((MemoryIndexer.removeFromIndex ls rid).vectorIndex.map
          (fun v => v.id))
        ↔ (x ∈ (ls.vectorIndex.map (fun v => v.id)) ∧ x ≠ rid))
    ∧ ((∀ x, x ∈ (ls.memoryIndex.map (fun m => m.id))
          ↔ x ∈ (ls.vectorIndex.map (fun v => v.id)))
        → (∀ x, x ∈ ((MemoryIndexer.removeFromIndex ls rid).memoryIndex.map
              (fun m => m.id))
            ↔ x ∈ ((MemoryIndexer.removeFromIndex ls rid).vectorIndex.map
              (fun v => v.id)))) := by
  have hrm : (MemoryIndexer.removeFromIndex ls rid).memoryIndex
      = ls.memoryIndex.filter (fun m => m.id != rid) := by
    unfold MemoryIndexer.removeFromIndex
    rw [if_pos (by simp [hls])]
  have hrv : (MemoryIndexer.removeFromIndex ls rid).vectorIndex
      = ls.vectorIndex.filter (fun v => v.id != rid) := by
    unfold MemoryIndexer.removeFromIndex
    rw [if_pos (by simp [hls])]
  have hm : ∀ x, x ∈ ((MemoryIndexer.removeFromIndex ls rid).memoryIndex.map
      (fun m => m.id))
      ↔ (x ∈ (ls.memoryIndex.map (fun m => m.id)) ∧ x ≠ rid) := by
    intro x
    rw [hrm]
    simp only [List.mem_map, List.mem_filter, bne_iff_ne, ne_eq]
    constructor
    · rintro ⟨m, ⟨hmem, hne⟩, rfl⟩
      exact ⟨⟨m, hmem, rfl⟩, hne⟩
    · rintro ⟨⟨m, hmem, rfl⟩, hne⟩
      exact ⟨m, ⟨hmem, hne⟩, rfl⟩
  have hv : ∀ x, x ∈ ((MemoryIndexer.removeFromIndex ls rid).vectorIndex.map
      (fun v => v.id))
      ↔ (x ∈ (ls.vectorIndex.map (fun v => v.id)) ∧ x ≠ rid) := by
    intro x
    rw [hrv]
    simp only [List.mem_map, List.mem_filter, bne_iff_ne, ne_eq]
    constructor
    · rintro ⟨v, ⟨hmem, hne⟩, rfl⟩
      exact ⟨⟨v, hmem, rfl⟩, hne⟩
    · rintro ⟨⟨v, hmem, rfl⟩, hne⟩
      exact ⟨v, ⟨hmem, hne⟩, rfl⟩
  refine ⟨?_, ?_, hm, hv, ?_⟩
  · intro m hmem
    rw [hrm] at hmem
    have := (List.mem_filter.mp hmem).2
    simpa [bne_iff_ne] using this
  · intro v hmem
    rw [hrv] at hmem
    have := (List.mem_filter.mp hmem).2
    simpa [bne_iff_ne] using this
  · intro hsame x
    rw [hm x, hv x, hsame x]

/-- C6: whenever the `og_index_config` side-table holds no stored
`contractHash` for a memory id (no entry, or an entry without a truthy
hash), `verifyMemory(id)` returns `false` with the indexer state and the
ledger untouched and without attempting any registry `verify`
transaction — in particular the registry is never invoked with a
fabricated hash. -/
theorem C6_verifyMemory_no_contract_hash (env : Env) (st : IndexerState)
    (led : Ledger) (memoryId : String)
    (h : strPresent ((lookupConfig?
      (MemoryIndexer.getIndexConfigMap st.store) memoryId).bind
      (fun e => e.contractHash)) = none) :
    MemoryIndexer.verifyMemory env st led memoryId
      = ⟨false, st, led, false⟩ := by
  rcases st with ⟨ls, zg⟩
  cases zg with
  | none => rfl
  | some z =>
    by_cases hcs : z.configSet = true
    · simp [MemoryIndexer.verifyMemory, hcs, h]
    · simp [MemoryIndexer.verifyMemory, hcs]

/-- Witness for C9 at a one-record store. -/
theorem C9_removeFromIndex_removes_both_witness :
    (∀ m ∈ (MemoryIndexer.removeFromIndex
        ⟨[sampleMemory],
          [⟨"id-1", [1], ⟨"hello", ["ui"], "chat", "t", some "blob-1"⟩⟩],
          [], true⟩ "id-1").memoryIndex, m.id ≠ "id-1")
    ∧ (∀ v ∈ (MemoryIndexer.removeFromIndex
        ⟨[sampleMemory],
          [⟨"id-1", [1], ⟨"hello", ["ui"], "chat", "t", some "blob-1"⟩⟩],
          [], true⟩ "id-1").vectorIndex, v.id ≠ "id-1")
    ∧ (∀ x, x ∈ ((MemoryIndexer.removeFromIndex
          ⟨[sampleMemory],
            [⟨"id-1", [1], ⟨"hello", ["ui"], "chat", "t", some "blob-1"⟩⟩],
            [], true⟩ "id-1").memoryIndex.map (fun m => m.id))
        ↔ (x ∈ (([sampleMemory] : List MemoryEntry).map (fun m => m.id))
            ∧ x ≠ "id-1"))
    ∧ (∀ x, x ∈ ((MemoryIndexer.removeFromIndex
          ⟨[sampleMemory],
            [⟨"id-1", [1], ⟨"hello", ["ui"], "chat", "t", some "blob-1"⟩⟩],
            [], true⟩ "id-1").vectorIndex.map (fun v => v.id))
        ↔ (x ∈ (([⟨"id-1", [1],
              ⟨"hello", ["ui"], "chat", "t", some "blob-1"⟩⟩] :
              List VectorEntry).map (fun v => v.id)) ∧ x ≠ "id-1"))
    ∧ ((∀ x, x ∈ (([sampleMemory] : List MemoryEntry).map (fun m => m.id))
          ↔ x ∈ (([⟨"id-1", [1],
              ⟨"hello", ["ui"], "chat", "t", some "blob-1"⟩⟩] :
              List VectorEntry).map (fun v => v.id)))
        → (∀ x, x ∈ ((MemoryIndexer.removeFromIndex
              ⟨[sampleMemory],
                [⟨"id-1", [1],
                  ⟨"hello", ["ui"], "chat", "t", some "blob-1"⟩⟩],
                [], true⟩ "id-1").memoryIndex.map (fun m => m.id))
            ↔ x ∈ ((MemoryIndexer.removeFromIndex
              ⟨[sampleMemory],
                [⟨"id-1", [1],
                  ⟨"hello", ["ui"], "chat", "t", some "blob-1"⟩⟩],
                [], true⟩ "id-1").vectorIndex.map (fun v => v.id)))) :=
  C9_removeFromIndex_removes_both
    ⟨[sampleMemory],
      [⟨"id-1", [1], ⟨"hello", ["ui"], "chat", "t", some "blob-1"⟩⟩],
      [], true⟩ "id-1" rfl

/-- Witness for C6 at an empty side-table. -/
theorem C6_verifyMemory_no_contract_hash_witness :
    strPresent ((lookupConfig?
        (MemoryIndexer.getIndexConfigMap stFull.store) "id-x").bind
        (fun e => e.contractHash)) = none
    ∧ MemoryIndexer.verifyMemory sampleEnvOn stFull emptyLedger "id-x"
        = ⟨false, stFull, emptyLedger, false⟩ :=
  ⟨rfl, C6_verifyMemory_no_contract_hash sampleEnvOn stFull emptyLedger
    "id-x" rfl⟩

theorem strPresent_none : strPresent none = none := rfl

theorem strPresent_some_of_ne (s : String) (h : s ≠ "") :
    strPresent (some s) = some s := by
  simp [strPresent, h]

theorem mem_replaceFirstMem (l : List MemoryEntry) (m : MemoryEntry)
    (h : l.any (fun x => x.id == m.id) = true) :
    m ∈ MemoryIndexer.replaceFirstMem l m := by
  induction l with
  | nil => simp at h
  | cons x xs ih =>
    unfold MemoryIndexer.replaceFirstMem
    by_cases hx : (x.id == m.id) = true
    · rw [if_pos hx]
      exact List.mem_cons_self _ _
    · have hxf : (x.id == m.id) = false := by simpa using hx
      rw [if_neg hx]
      exact List.mem_cons_of_mem _
        (ih (by simpa [List.any_cons, hxf] using h))

theorem mem_updateLocalMetadataIndex (ls : LocalStore) (m : MemoryEntry)
    (hls : ls.hasLocalStorage = true) :
    m ∈ (MemoryIndexer.updateLocalMetadataIndex ls m).memoryIndex := by
  unfold MemoryIndexer.updateLocalMetadataIndex
  rw [if_neg (by simp [hls])]
  by_cases h : ls.memoryIndex.any (fun x => x.id == m.id) = true
  · rw [if_pos h]
    exact mem_replaceFirstMem _ _ h
  · rw [if_neg h]
    exact List.mem_cons_self _ _

theorem updateLocalMetadataIndex_hasLS (ls : LocalStore) (m : MemoryEntry) :
    (MemoryIndexer.updateLocalMetadataIndex ls m).hasLocalStorage
      = ls.hasLocalStorage := by
  unfold MemoryIndexer.updateLocalMetadataIndex
  split
  · rfl
  · split <;> rfl

theorem updateLocalMetadataIndex_vectorIndex (ls : LocalStore)
    (m : MemoryEntry) :
    (MemoryIndexer.updateLocalMetadataIndex ls m).vectorIndex
      = ls.vectorIndex := by
  unfold MemoryIndexer.updateLocalMetadataIndex
  split
  · rfl
  · split <;> rfl

theorem updateLocalVectorIndex_hasLS (ls : LocalStore) (memoryId : String)
    (v : List ℚ) (m : MemoryEntry) :
    (MemoryIndexer.updateLocalVectorIndex ls memoryId v m).hasLocalStorage
      = ls.hasLocalStorage := by
  unfold MemoryIndexer.updateLocalVectorIndex
  split
  · rfl
  · split <;> rfl

theorem updateLocalVectorIndex_memoryIndex (ls : LocalStore)
    (memoryId : String) (v : List ℚ) (m : MemoryEntry) :
    (MemoryIndexer.updateLocalVectorIndex ls memoryId v m).memoryIndex
      = ls.memoryIndex := by
  unfold MemoryIndexer.updateLocalVectorIndex
  split
  · rfl
  · split <;> rfl

theorem addToIndex_memoryIndex (st : IndexerState) (m : MemoryEntry)
    (vector : Option (List ℚ)) :
    (MemoryIndexer.addToIndex st m vector).store.memoryIndex
      = (MemoryIndexer.updateLocalMetadataIndex st.store m).memoryIndex := by
  unfold MemoryIndexer.addToIndex
  cases vector with
  | none => rfl
  | some v =>
    by_cases hv : 0 < v.length
    · simp only [hv, if_pos]
      exact updateLocalVectorIndex_memoryIndex _ _ _ _
    · simp only [hv, if_neg, ite_false]

theorem addToIndex_hasLS (st : IndexerState) (m : MemoryEntry)
    (vector : Option (List ℚ)) :
    (MemoryIndexer.addToIndex st m vector).store.hasLocalStorage
      = st.store.hasLocalStorage := by
  unfold MemoryIndexer.addToIndex
  cases vector with
  | none => exact updateLocalMetadataIndex_hasLS _ _
  | some v =>
    by_cases hv : 0 < v.length
    · simp only [hv, if_pos]
      rw [updateLocalVectorIndex_hasLS, updateLocalMetadataIndex_hasLS]
    · simp only [hv, if_neg, ite_false]
      exact updateLocalMetadataIndex_hasLS _ _

theorem addToIndex_none_vectorIndex (st : IndexerState) (m : MemoryEntry) :
    (MemoryIndexer.addToIndex st m none).store.vectorIndex
      = st.store.vectorIndex := by
  unfold MemoryIndexer.addToIndex
  exact updateLocalMetadataIndex_vectorIndex _ _

theorem queryMemories_eq_local (env : Env) (st : IndexerState) (led : Ledger)
    (c : MemoryIndexer.QueryCriteria) (hoc : c.onChainOnly = false) :
    MemoryIndexer.queryMemories env st led c
      = MemoryIndexer.queryMemoriesLocal st.store c := by
  unfold MemoryIndexer.queryMemories
  cases hz : st.zg with
  | none => simp [hoc]
  | some z =>
    by_cases hcs : z.configSet = true
    · cases hq : ZGIndexingService.queryMemoriesChain env z led c.tag
          c.contentType c.agent with
      | ok rs => simp [hoc, hcs, hq]
      | error e => simp [hoc, hcs, hq]
    · simp [hoc, hcs]

theorem mem_queryMemoriesLocal_agent (ls : LocalStore) (m : MemoryEntry)
    (hm : m ∈ MemoryIndexer.getMetadataIndex ls) :
    m ∈ MemoryIndexer.queryMemoriesLocal ls ⟨none, none, m.owner, false⟩ := by
  unfold MemoryIndexer.queryMemoriesLocal
  simp only [strPresent_none]
  cases ho : m.owner with
  | none => simpa [strPresent_none] using hm
  | some a =>
    by_cases ha : a = ""
    · subst ha
      simpa [strPresent] using hm
    · rw [strPresent_some_of_ne a ha]
      refine List.mem_filter.mpr ⟨hm, ?_⟩
      simp [ho]

/-- C1: after the synchronous part of `addToIndex(record)` completes
(browser context), `queryMemories({agent: record.owner})` immediately
returns a record with the added record's id via the local path — for every
environment, ledger content, service-initialization state and RPC
reachability. -/
theorem C1_local_first_availability (env : Env) (st : IndexerState)
    (led : Ledger) (m : MemoryEntry) (vector : Option (List ℚ))
    (hls : st.store.hasLocalStorage = true) :
    ∃ r ∈ MemoryIndexer.queryMemories env
        (MemoryIndexer.addToIndex st m vector) led
        ⟨none, none, m.owner, false⟩,
      r.id = m.id := by
  refine ⟨m, ?_, rfl⟩
  rw [queryMemories_eq_local _ _ _ _ rfl]
  apply mem_queryMemoriesLocal_agent
  unfold MemoryIndexer.getMetadataIndex
  rw [addToIndex_hasLS, if_pos hls, addToIndex_memoryIndex]
  exact mem_updateLocalMetadataIndex st.store m hls

/-- Witness for C1: unreachable RPC, uninitialized service, empty local
index. -/
theorem C1_local_first_availability_witness :
    ∃ r ∈ MemoryIndexer.queryMemories sampleEnvOff
        (MemoryIndexer.addToIndex ⟨emptyStore, none⟩ sampleMemory none)
        emptyLedger ⟨none, none, sampleMemory.owner, false⟩,
      r.id = sampleMemory.id :=
  C1_local_first_availability sampleEnvOff ⟨emptyStore, none⟩ emptyLedger
    sampleMemory none rfl

/-- C5 counterexample: with the indexing service initialized but the
registry unreachable at initialization (sticky storage-only mode),
`getIndexStats` returns an `onChain` section that is *present and
zero-filled* — the claim demands it be omitted entirely whenever the
registry is unreachable. -/
theorem C5_counterexample_zero_filled_onchain :
    (MemoryIndexer.getIndexStats sampleEnvOn stDegraded emptyLedger).onChain
        = some ⟨0, 0, 0, 0, 0⟩
    ∧ (MemoryIndexer.getIndexStats sampleEnvOn stDegraded
        emptyLedger).onChain ≠ none := by
  exact ⟨rfl, by decide⟩

/-- C5 amended: the `onChain` section is omitted exactly when the indexing
service itself is unavailable or reports uninitialized; when the service is
initialized but the registry is unreachable (storage-only mode) — or the
stats RPC read fails — the section is present and zero-filled; only with a
reachable registry does it carry the ledger stats.  The local counts are
always those of the persisted local indices. -/
theorem C5_getIndexStats_amended (env : Env) (st : IndexerState)
    (led : Ledger) :
    ((MemoryIndexer.getIndexStats env st led).localStats
        = ⟨(MemoryIndexer.getMetadataIndex st.store).length,
           (MemoryIndexer.getVectorIndex st.store).length,
           ((MemoryIndexer.getMetadataIndex st.store).map (fun m =>
              match m.metadata with
              | some md => md.size
              | none => 0)).sum⟩)
    ∧ (st.zg = none →
        (MemoryIndexer.getIndexStats env st led).onChain = none)
    ∧ (∀ z, st.zg = some z → z.configSet = false →
        (MemoryIndexer.getIndexStats env st led).onChain = none)
    ∧ (∀ z, st.zg = some z → z.configSet = true → z.contractSet = false →
        (MemoryIndexer.getIndexStats env st led).onChain
          = some ⟨0, 0, 0, 0, 0⟩)
    ∧ (∀ z, st.zg = some z → z.configSet = true → z.contractSet = true →
        env.netOk = false →
        (MemoryIndexer.getIndexStats env st led).onChain
          = some ⟨0, 0, 0, 0, 0⟩)
    ∧ (∀ z, st.zg = some z → z.configSet = true → z.contractSet = true →
        env.netOk = true →
        (MemoryIndexer.getIndexStats env st led).onChain
          = some led.getMemoryStats) := by
  rcases st with ⟨ls, zg⟩
  refine ⟨?_, ?_, ?_, ?_, ?_, ?_⟩
  · cases zg with
    | none => rfl
    | some z =>
      by_cases hcs : z.configSet = true
      · simp [MemoryIndexer.getIndexStats, hcs]
      · simp [MemoryIndexer.getIndexStats, hcs]
  · intro hz
    simp only at hz
    subst hz
    rfl
  · intro z hz hcs
    simp only at hz
    subst hz
    simp [MemoryIndexer.getIndexStats, hcs]
  · intro z hz hcs hct
    simp only at hz
    subst hz
    simp [MemoryIndexer.getIndexStats, hcs,
      ZGIndexingService.getIndexingStats, hct]
  · intro z hz hcs hct hnet
    simp only at hz
    subst hz
    simp [MemoryIndexer.getIndexStats, hcs,
      ZGIndexingService.getIndexingStats, hct, hnet]
  · intro z hz hcs hct hnet
    simp only at hz
    subst hz
    simp [MemoryIndexer.getIndexStats, hcs,
      ZGIndexingService.getIndexingStats, hct, hnet]

/-- Witness for C5 amended: the three on-chain shapes at concrete states. -/
theorem C5_getIndexStats_amended_witness :
    ((MemoryIndexer.getIndexStats sampleEnvOn ⟨emptyStore, none⟩
        emptyLedger).onChain = none)
    ∧ ((MemoryIndexer.getIndexStats sampleEnvOn stDegraded
        emptyLedger).onChain = some ⟨0, 0, 0, 0, 0⟩)
    ∧ ((MemoryIndexer.getIndexStats sampleEnvOn stFull
        ledgerWithHello).onChain = some ledgerWithHello.getMemoryStats) :=
  ⟨(C5_getIndexStats_amended sampleEnvOn ⟨emptyStore, none⟩
      emptyLedger).2.1 rfl,
   (C5_getIndexStats_amended sampleEnvOn stDegraded
      emptyLedger).2.2.2.1 ⟨true, false⟩ rfl rfl rfl,
   (C5_getIndexStats_amended sampleEnvOn stFull
      ledgerWithHello).2.2.2.2.2 ⟨true, true⟩ rfl rfl rfl rfl⟩

/-- C8 (code-bug demonstration): with the service initialized, the contract
configured, but the RPC unreachable, the on-chain commit fails; yet
`indexMemory` reports storage-only success and `addToOnChainIndex`
persists `{onChain:true, transactionHash:undefined, contractHash}` for the
memory although nothing was committed — the ledger is unchanged. -/
theorem C8_onchain_flag_without_commit :
    (lookupConfig ((MemoryIndexer.addToOnChainIndex sampleEnvOff stFull
        emptyLedger sampleMemory).1.store.indexConfig) "id-1").onChain
      = some true
    ∧ (lookupConfig ((MemoryIndexer.addToOnChainIndex sampleEnvOff stFull
        emptyLedger sampleMemory).1.store.indexConfig)
        "id-1").transactionHash = none
    ∧ (MemoryIndexer.addToOnChainIndex sampleEnvOff stFull emptyLedger
        sampleMemory).2 = emptyLedger := by
  exact ⟨rfl, rfl, rfl⟩

/-- C7 counterexample: the embedding model fails, yet `createMemory`
completes successfully (the failure is swallowed by the inner `catch`) —
the claim demands the store operation abort with an `EmbeddingFailure`. -/
theorem C7_counterexample_embed_failure_swallowed :
    generateEmbedding sampleCreateEnvFail.embedModel 1536
        sampleMemoryData.content
      = .error "Embedding generation failed: model unavailable"
    ∧ (Except.toOption (createMemory sampleCreateEnvFail stFull []
        sampleMemoryData)).isSome = true
    ∧ (Except.toOption (createMemory sampleCreateEnvFail stFull []
        sampleMemoryData)).map (fun out => out.2.2.store.vectorIndex)
      = some [] := by
  exact ⟨rfl, rfl, rfl⟩

theorem exists_mem_addToIndex (st : IndexerState) (m : MemoryEntry)
    (vector : Option (List ℚ)) (hls : st.store.hasLocalStorage = true) :
    ∃ r ∈ (MemoryIndexer.addToIndex st m vector).store.memoryIndex,
      r.id = m.id := by
  refine ⟨m, ?_, rfl⟩
  rw [addToIndex_memoryIndex]
  exact mem_updateLocalMetadataIndex st.store m hls

/-- C7 amended: when embedding generation fails during `createMemory`, the
failure is caught and logged, and the store still completes successfully:
the memory (with the fresh id) is returned, appended to the in-memory
cache, and upserted into the local metadata index, while the local vector
index is left exactly unchanged — so no defaulted or zero vector is ever
indexed, but no `EmbeddingFailure` reaches the caller either. -/
theorem C7_createMemory_embed_failure_amended (cenv : CreateEnv)
    (st : IndexerState) (mems : List MemoryEntry) (md : MemoryData)
    (e : String)
    (hembed : generateEmbedding cenv.embedModel 1536 md.content
      = .error e) :
    ∃ out, createMemory cenv st mems md = .ok out
      ∧ out.2.2.store.vectorIndex = st.store.vectorIndex
      ∧ out.2.1 = mems ++ [out.1]
      ∧ out.1.id = cenv.newId
      ∧ (st.store.hasLocalStorage = true →
          ∃ r ∈ out.2.2.store.memoryIndex, r.id = cenv.newId) := by
  unfold createMemory
  simp only [hembed]
  refine ⟨_, rfl, ?_, rfl, rfl, ?_⟩
  · exact addToIndex_none_vectorIndex _ _
  · intro hls
    exact exists_mem_addToIndex st _ none hls

/-- Witness for C7 amended at the failing embedding model. -/
theorem C7_createMemory_embed_failure_amended_witness :
    ∃ out, createMemory sampleCreateEnvFail stFull [] sampleMemoryData
        = .ok out
      ∧ out.2.2.store.vectorIndex = stFull.store.vectorIndex
      ∧ out.2.1 = [] ++ [out.1]
      ∧ out.1.id = sampleCreateEnvFail.newId
      ∧ (stFull.store.hasLocalStorage = true →
          ∃ r ∈ out.2.2.store.memoryIndex,
            r.id = sampleCreateEnvFail.newId) :=
  C7_createMemory_embed_failure_amended sampleCreateEnvFail stFull []
    sampleMemoryData "Embedding generation failed: model unavailable" rfl

theorem resolveAll_ok (env : Env) (ms : List MemoryEntry)
    (h : ∀ m ∈ ms, ∃ s, ZGIndexingService.resolveStorageId env m = .ok s) :
    ∃ ids, ZGIndexingService.resolveAll env ms = .ok ids
      ∧ ids.length = ms.length := by
  induction ms with
  | nil => exact ⟨[], rfl, rfl⟩
  | cons m rest ih =>
    rcases h m (List.mem_cons_self _ _) with ⟨s, hs⟩
    rcases ih (fun x hx => h x (List.mem_cons_of_mem _ hx)) with
      ⟨ids, hids, hlen⟩
    refine ⟨s :: ids, ?_, by simp [hlen]⟩
    unfold ZGIndexingService.resolveAll
    rw [hs, hids]

theorem batchIndexMemories_happy (env : Env) (zg : ZGState) (led : Ledger)
    (ms : List MemoryEntry) (ids : List String)
    (hct : zg.contractSet = true) (hnet : env.netOk = true)
    (hres : ZGIndexingService.resolveAll env ms = .ok ids)
    (hlen : ids.length = ms.length)
    (hn0 : ms.length ≠ 0) (h50 : ms.length ≤ 50) :
    (ZGIndexingService.batchIndexMemories env zg led ms).toOption.map
      (fun o => (o.results, o.batchTxAttempted))
    = some ((ms.map (fun m => env.keccak m.content)).map
        (fun h => ⟨true, some env.txRef, some h, none⟩), true) := by
  unfold ZGIndexingService.batchIndexMemories
  rw [if_neg (by simp [hct]), hres]
  have hlt : ¬ 50 < ms.length := Nat.not_lt.mpr h50
  simp [callContract, hnet, Ledger.batchCommitMemoryHashes, hlen, hn0, hlt,
    Except.toOption]

theorem updateConfigsFromResults_cons (ls : LocalStore)
    (p : IndexingResult × MemoryEntry)
    (ps : List (IndexingResult × MemoryEntry)) (t : String) :
    MemoryIndexer.updateConfigsFromResults ls (p :: ps) t
      = MemoryIndexer.updateConfigsFromResults
          (if p.1.success = true then
            updateIndexConfigOnChain ls p.2.id p.1.transactionHash
              p.1.contractHash t
          else ls) ps t := rfl

theorem updateConfigsFromResults_hasLS (ls : LocalStore)
    (pairs : List (IndexingResult × MemoryEntry)) (t : String) :
    (MemoryIndexer.updateConfigsFromResults ls pairs t).hasLocalStorage
      = ls.hasLocalStorage := by
  induction pairs generalizing ls with
  | nil => rfl
  | cons p ps ih =>
    rw [updateConfigsFromResults_cons]
    by_cases hp : p.1.success = true
    · rw [if_pos hp, ih, updateIndexConfigOnChain_hasLS]
    · rw [if_neg hp, ih]

theorem updateConfigsFromResults_preserves (ls : LocalStore)
    (pairs : List (IndexingResult × MemoryEntry)) (t : String) (x : String)
    (h : (lookupConfig ls.indexConfig x).onChain = some true) :
    (lookupConfig (MemoryIndexer.updateConfigsFromResults ls pairs
      t).indexConfig x).onChain = some true := by
  induction pairs generalizing ls with
  | nil => exact h
  | cons p ps ih =>
    rw [updateConfigsFromResults_cons]
    by_cases hp : p.1.success = true
    · rw [if_pos hp]
      exact ih _ (updateIndexConfigOnChain_preserves _ _ _ _ _ _ h)
    · rw [if_neg hp]
      exact ih _ h

theorem updateConfigsFromResults_sets (ls : LocalStore)
    (pairs : List (IndexingResult × MemoryEntry)) (t : String)
    (hls : ls.hasLocalStorage = true)
    (hsucc : ∀ p ∈ pairs, p.1.success = true) :
    ∀ m ∈ pairs.map Prod.snd,
      (lookupConfig (MemoryIndexer.updateConfigsFromResults ls pairs
        t).indexConfig m.id).onChain = some true := by
  induction pairs generalizing ls with
  | nil => intro m hm; simp at hm
  | cons p ps ih =>
    intro m hm
    rw [updateConfigsFromResults_cons,
      if_pos (hsucc p (List.mem_cons_self _ _))]
    rw [List.map_cons] at hm
    rcases List.mem_cons.mp hm with hme | hmem
    · subst hme
      exact updateConfigsFromResults_preserves _ _ _ _
        (updateIndexConfigOnChain_sets _ _ _ _ _ hls)
    · exact ih _ (by rw [updateIndexConfigOnChain_hasLS]; exact hls)
        (fun q hq => hsucc q (List.mem_cons_of_mem _ hq)) m hmem

/-- C3: a batch handed to `batchIndexOnChain` in which some record's
content hash already exists on-chain (service initialized, contract
reachable, every record already persisted to the blob store, batch within
the 1..50 contract bound) yields one success outcome per record —
duplicates are silently skipped by the contract, not treated as errors —
and the index-config side-table is updated for every record of the batch,
with no exception or partial-batch failure. -/
theorem C3_batch_duplicate_tolerance (env : Env) (st : IndexerState)
    (led : Ledger) (ms : List MemoryEntry) (z : ZGState)
    (hz : st.zg = some z) (hcs : z.configSet = true)
    (hct : z.contractSet = true) (hnet : env.netOk = true)
    (hres : ∀ m ∈ ms, ∃ s,
      ZGIndexingService.resolveStorageId env m = .ok s)
    (hn0 : ms.length ≠ 0) (h50 : ms.length ≤ 50)
    (_hdup : ∃ m ∈ ms, led.hasHash (env.keccak m.content) = true)
    (hls : st.store.hasLocalStorage = true) :
    ((MemoryIndexer.batchIndexOnChain env st led ms).results.length
        = ms.length)
    ∧ (∀ r ∈ (MemoryIndexer.batchIndexOnChain env st led ms).results,
        r.success = true)
    ∧ (∀ m ∈ ms, (lookupConfig (MemoryIndexer.batchIndexOnChain env st led
        ms).st.store.indexConfig m.id).onChain = some true) := by
  rcases resolveAll_ok env ms hres with ⟨ids, hra, hlen⟩
  have hproj := batchIndexMemories_happy env z led ms ids hct hnet hra hlen
    hn0 h50
  rcases hbm : ZGIndexingService.batchIndexMemories env z led ms with e | out
  · rw [hbm] at hproj
    exact absurd hproj (by simp [Except.toOption])
  · rw [hbm] at hproj
    have hpair : (out.results, out.batchTxAttempted)
        = ((ms.map (fun m => env.keccak m.content)).map
            (fun h => ⟨true, some env.txRef, some h, none⟩), true) := by
      simpa [Except.toOption] using hproj
    have hrt : out.results = (ms.map (fun m => env.keccak m.content)).map
        (fun h => ⟨true, some env.txRef, some h, none⟩) :=
      congrArg Prod.fst hpair
    have hout : MemoryIndexer.batchIndexOnChain env st led ms
        = ⟨⟨MemoryIndexer.updateConfigsFromResults st.store
            (out.results.zip ms) env.nowIso, st.zg⟩,
          out.ledger, out.results⟩ := by
      unfold MemoryIndexer.batchIndexOnChain
      rw [hz]
      simp only [hcs, not_true_eq_false, if_false, hbm]
    refine ⟨?_, ?_, ?_⟩
    · rw [hout]
      simp [hrt]
    · rw [hout]
      intro r hr
      simp only [hrt, List.mem_map] at hr
      rcases hr with ⟨h, _, rfl⟩
      rfl
    · intro m hm
      rw [hout]
      have hlenr : ms.length ≤ out.results.length := by
        rw [hrt]
        simp
      have hzip : m ∈ ((out.results.zip ms).map Prod.snd) := by
        rw [List.map_snd_zip _ _ hlenr]
        exact hm
      refine updateConfigsFromResults_sets st.store _ env.nowIso hls ?_ m
        hzip
      intro p hp
      rcases List.of_mem_zip hp with ⟨hp1, _⟩
      rw [hrt] at hp1
      simp only [List.mem_map] at hp1
      rcases hp1 with ⟨h, _, heq⟩
      rw [← heq]

/-- Witness for C3: a two-record batch whose first record's hash is already
committed on the ledger. -/
theorem C3_batch_duplicate_tolerance_witness :
    ((MemoryIndexer.batchIndexOnChain sampleEnvOn stFull ledgerWithHello
        [sampleMemory, sampleMemory2]).results.length = 2)
    ∧ (∀ r ∈ (MemoryIndexer.batchIndexOnChain sampleEnvOn stFull
        ledgerWithHello [sampleMemory, sampleMemory2]).results,
        r.success = true)
    ∧ (∀ m ∈ [sampleMemory, sampleMemory2],
        (lookupConfig (MemoryIndexer.batchIndexOnChain sampleEnvOn stFull
          ledgerWithHello
          [sampleMemory, sampleMemory2]).st.store.indexConfig
          m.id).onChain = some true) :=
  C3_batch_duplicate_tolerance sampleEnvOn stFull ledgerWithHello
    [sampleMemory, sampleMemory2] ⟨true, true⟩ rfl rfl rfl rfl
    (by
      intro m hm
      simp only [List.mem_cons, List.not_mem_nil, or_false] at hm
      rcases hm with rfl | rfl
      · exact ⟨"blob-1", rfl⟩
      · exact ⟨"blob-2", rfl⟩)
    (by decide) (by decide)
    ⟨sampleMemory, by simp, rfl⟩ rfl

/-- C4 counterexample: a 51-record batch (every record already persisted to
the blob store) is handed to `batchIndexMemories` with the contract
configured: the oversized batch is *submitted* — the contract call is
attempted, there is no client-side pre-submission validation — and the
rejection comes back as the contract's revert reason, contradicting the
claim that the batch is rejected client-side before any network
submission. -/
theorem C4_counterexample_oversized_batch_submitted :
    (ZGIndexingService.batchIndexMemories sampleEnvOn ⟨true, true⟩
        emptyLedger (List.replicate 51 sampleMemory)).toOption.map
      (fun o => o.batchTxAttempted) = some true
    ∧ (ZGIndexingService.batchIndexMemories sampleEnvOn ⟨true, true⟩
        emptyLedger (List.replicate 51 sampleMemory)).toOption.map
      (fun o => o.results.all (fun r => r.error == some "Batch too large"))
      = some true := by
  exact ⟨rfl, rfl⟩

/-- C4 amended: an oversized batch (more than 50 records) is rejected not
client-side but by the contract's own `require("Batch too large")` after
the batch transaction has been handed to the network: the whole call
reverts, every per-record outcome is a failure carrying that descriptive
reason, and the ledger is left unchanged — the batch is never silently
truncated. -/
theorem C4_oversized_batch_amended (env : Env) (zg : ZGState) (led : Ledger)
    (ms : List MemoryEntry) (ids : List String)
    (hct : zg.contractSet = true) (hnet : env.netOk = true)
    (hres : ZGIndexingService.resolveAll env ms = .ok ids)
    (hlen : ids.length = ms.length)
    (h50 : 50 < ms.length) :
    ZGIndexingService.batchIndexMemories env zg led ms
      = .ok ⟨ms.map (fun _ => ⟨false, none, none, some "Batch too large"⟩),
          led, true⟩ := by
  unfold ZGIndexingService.batchIndexMemories
  rw [if_neg (by simp [hct]), hres]
  have hn0 : ¬ ms.length = 0 := by omega
  simp [callContract, hnet, Ledger.batchCommitMemoryHashes, hlen, hn0, h50]

/-- Witness for C4 amended at the 51-record batch. -/
theorem C4_oversized_batch_amended_witness :
    ZGIndexingService.batchIndexMemories sampleEnvOn ⟨true, true⟩
        emptyLedger (List.replicate 51 sampleMemory)
      = .ok ⟨(List.replicate 51 sampleMemory).map
          (fun _ => ⟨false, none, none, some "Batch too large"⟩),
          emptyLedger, true⟩ :=
  C4_oversized_batch_amended sampleEnvOn ⟨true, true⟩ emptyLedger
    (List.replicate 51 sampleMemory) (List.replicate 51 "blob-1") rfl rfl
    rfl (by decide) (by decide)

theorem normSqList_nonneg (a : List ℝ) : 0 ≤ normSqList a := by
  unfold normSqList
  apply List.sum_nonneg
  intro x hx
  rcases List.mem_map.mp hx with ⟨y, _, rfl⟩
  exact mul_self_nonneg y

theorem dotList_self (a : List ℝ) : dotList a a = normSqList a := by
  induction a with
  | nil => rfl
  | cons x xs ih =>
    have h1 : dotList (x :: xs) (x :: xs) = x * x + dotList xs xs := by
      simp [dotList]
    have h2 : normSqList (x :: xs) = x * x + normSqList xs := by
      simp [normSqList]
    rw [h1, h2, ih]

theorem normSqList_eq_zero (a : List ℝ) (h : normSqList a = 0) :
    ∀ x ∈ a, x = 0 := by
  induction a with
  | nil => simp
  | cons x xs ih =>
    have hx2 : 0 ≤ x * x := mul_self_nonneg x
    have hxs : 0 ≤ normSqList xs := normSqList_nonneg xs
    have hcons : normSqList (x :: xs) = x * x + normSqList xs := by
      simp [normSqList]
    rw [hcons] at h
    have hx0 : x * x = 0 := by linarith
    have hs0 : normSqList xs = 0 := by linarith
    intro t ht
    rcases List.mem_cons.mp ht with rfl | htt
    · exact mul_self_eq_zero.mp hx0
    · exact ih hs0 t htt

theorem dotList_zero_left (a : List ℝ) : ∀ b, (∀ x ∈ a, x = 0) →
    dotList a b = 0 := by
  induction a with
  | nil =>
    intro b _
    simp [dotList]
  | cons x xs ih =>
    intro b h
    cases b with
    | nil => simp [dotList]
    | cons y ys =>
      have hcons : dotList (x :: xs) (y :: ys) = x * y + dotList xs ys := by
        simp [dotList]
      rw [hcons, h x (List.mem_cons_self _ _),
        ih ys (fun t ht => h t (List.mem_cons_of_mem _ ht))]
      ring

theorem dotList_zero_right (a : List ℝ) : ∀ b, (∀ y ∈ b, y = 0) →
    dotList a b = 0 := by
  induction a with
  | nil =>
    intro b _
    simp [dotList]
  | cons x xs ih =>
    intro b h
    cases b with
    | nil => simp [dotList]
    | cons y ys =>
      have hcons : dotList (x :: xs) (y :: ys) = x * y + dotList xs ys := by
        simp [dotList]
      rw [hcons, h y (List.mem_cons_self _ _),
        ih ys (fun t ht => h t (List.mem_cons_of_mem _ ht))]
      ring

theorem dotList_sq_le (a : List ℝ) : ∀ b : List ℝ,
    (dotList a b) ^ 2 ≤ normSqList a * normSqList b := by
  induction a with
  | nil =>
    intro b
    simp [dotList, normSqList]
  | cons x xs ih =>
    intro b
    cases b with
    | nil =>
      simp [dotList, normSqList]
    | cons y ys =>
      have hA := normSqList_nonneg xs
      have hB := normSqList_nonneg ys
      have hd := ih ys
      have hx : dotList (x :: xs) (y :: ys) = x * y + dotList xs ys := by
        simp [dotList]
      have hnx : normSqList (x :: xs) = x * x + normSqList xs := by
        simp [normSqList]
      have hny : normSqList (y :: ys) = y * y + normSqList ys := by
        simp [normSqList]
      rw [hx, hnx, hny]
      rcases eq_or_lt_of_le hA with hA0 | hApos
      · have hz : ∀ t ∈ xs, t = 0 := normSqList_eq_zero xs hA0.symm
        have hd0 : dotList xs ys = 0 := dotList_zero_left xs ys hz
        rw [hd0, ← hA0]
        nlinarith [mul_nonneg (mul_self_nonneg x) hB]
      · nlinarith [hd, hApos, hB,
          sq_nonneg (x * dotList xs ys - y * normSqList xs),
          mul_nonneg (add_nonneg hA (sq_nonneg x)) (sub_nonneg.mpr hd)]

/-- C2 counterexample: for the equal-length zero vectors `[0]` and `[0]`
the code computes `0/0`, which in JavaScript is `NaN` — not the `0` the
claim requires for zero-norm vectors. -/
theorem C2_counterexample_zero_norm_is_nan :
    cosineSimilarity [(0 : ℝ)] [(0 : ℝ)] = JSNum.nan
    ∧ JSNum.nan ≠ JSNum.real 0 := by
  constructor
  · unfold cosineSimilarity
    rw [if_neg (by simp)]
    have hd : dotList [(0 : ℝ)] [(0 : ℝ)] = 0 := by simp [dotList]
    have hn : normSqList [(0 : ℝ)] = 0 := by simp [normSqList]
    rw [hd, hn, Real.sqrt_zero, mul_zero]
    unfold jsDiv
    rw [if_pos rfl, if_pos rfl]
  · intro h
    exact JSNum.noConfusion h

/-- C2 amended: `cosineSimilarity` returns `0` exactly for mismatched
lengths; for equal-length vectors with a zero-norm operand it performs the
IEEE division `0/0` and returns `NaN` (not `0`); for equal-length vectors
of nonzero norm the result is a real number in `[-1, 1]`; and
`cosineSimilarity(a, a) = 1` exactly whenever `a` has nonzero norm. -/
theorem C2_cosine_similarity_amended (a b : List ℝ) :
    (a.length ≠ b.length → cosineSimilarity a b = JSNum.real 0)
    ∧ (a.length = b.length → (normSqList a = 0 ∨ normSqList b = 0) →
        cosineSimilarity a b = JSNum.nan)
    ∧ (a.length = b.length → normSqList a ≠ 0 → normSqList b ≠ 0 →
        ∃ x, cosineSimilarity a b = JSNum.real x ∧ -1 ≤ x ∧ x ≤ 1)
    ∧ (normSqList a ≠ 0 → cosineSimilarity a a = JSNum.real 1) := by
  refine ⟨?_, ?_, ?_, ?_⟩
  · intro h
    unfold cosineSimilarity
    rw [if_pos h]
  · intro hlen h0
    unfold cosineSimilarity
    rw [if_neg (by simp [hlen])]
    have hden : Real.sqrt (normSqList a) * Real.sqrt (normSqList b) = 0 := by
      rcases h0 with h | h
      · rw [h, Real.sqrt_zero, zero_mul]
      · rw [h, Real.sqrt_zero, mul_zero]
    have hnum : dotList a b = 0 := by
      rcases h0 with h | h
      · exact dotList_zero_left a b (normSqList_eq_zero a h)
      · exact dotList_zero_right a b (normSqList_eq_zero b h)
    rw [hnum, hden]
    unfold jsDiv
    rw [if_pos rfl, if_pos rfl]
  · intro hlen hA hB
    have hA0 := normSqList_nonneg a
    have hB0 := normSqList_nonneg b
    have hApos : 0 < normSqList a := lt_of_le_of_ne hA0 (Ne.symm hA)
    have hBpos : 0 < normSqList b := lt_of_le_of_ne hB0 (Ne.symm hB)
    have hden : 0 < Real.sqrt (normSqList a) * Real.sqrt (normSqList b) :=
      mul_pos (Real.sqrt_pos.mpr hApos) (Real.sqrt_pos.mpr hBpos)
    have h1 : Real.sqrt ((dotList a b) ^ 2)
        ≤ Real.sqrt (normSqList a * normSqList b) :=
      Real.sqrt_le_sqrt (dotList_sq_le a b)
    rw [Real.sqrt_sq_eq_abs, Real.sqrt_mul hA0] at h1
    have habs : |dotList a b /
        (Real.sqrt (normSqList a) * Real.sqrt (normSqList b))| ≤ 1 := by
      rw [abs_div, abs_of_pos hden]
      exact (div_le_one hden).mpr h1
    refine ⟨dotList a b /
      (Real.sqrt (normSqList a) * Real.sqrt (normSqList b)), ?_, ?_, ?_⟩
    · unfold cosineSimilarity
      rw [if_neg (by simp [hlen])]
      unfold jsDiv
      rw [if_neg (ne_of_gt hden)]
    · exact (abs_le.mp habs).1
    · exact (abs_le.mp habs).2
  · intro hA
    unfold cosineSimilarity
    rw [if_neg (by simp), dotList_self,
      Real.mul_self_sqrt (normSqList_nonneg a)]
    unfold jsDiv
    rw [if_neg hA, div_self hA]

/-- Witness for C2 amended: the four shapes at concrete vectors. -/
theorem C2_cosine_similarity_amended_witness :
    cosineSimilarity [(1 : ℝ)] [1, 0] = JSNum.real 0
    ∧ cosineSimilarity [(0 : ℝ)] [0] = JSNum.nan
    ∧ (∃ x, cosineSimilarity [(1 : ℝ)] [1] = JSNum.real x
        ∧ -1 ≤ x ∧ x ≤ 1)
    ∧ cosineSimilarity [(1 : ℝ)] [(1 : ℝ)] = JSNum.real 1 :=
  ⟨(C2_cosine_similarity_amended [1] [1, 0]).1 (by norm_num),
   (C2_cosine_similarity_amended [0] [0]).2.1 rfl
     (Or.inl (by norm_num [normSqList])),
   (C2_cosine_similarity_amended [1] [1]).2.2.1 rfl
     (by norm_num [normSqList]) (by norm_num [normSqList]),
   (C2_cosine_similarity_amended [1] [1]).2.2.2
     (by norm_num [normSqList])⟩

end BetterHalf
